import Mathlib

/-!
Shallow embedding of the skill-extraction and match-scoring core of the
ai-job-portal-skill-matching repository (backend/utils/skill_extractor.py,
backend/models/application.py, backend/config.py).

Python regular expressions are modelled by a small backtracking matcher
over `List Char` whose alternative order reproduces Python `re` priority
(leftmost match, greedy quantifiers, left-biased alternation).  Character
classes are the ASCII fragments of Python's `\w`, `\d`, `\s`, which covers
every string the specification and its examples mention.
-/

namespace JobPortal

/-- ASCII fragment of Python regex `\w`: letters, digits, underscore. -/
def isWordChar (c : Char) : Bool := c.isAlphanum || c = '_'

/-- ASCII fragment of Python regex `\s`: the whitespace characters. -/
def isSpaceChar (c : Char) : Bool :=
  c = ' ' || c = '\t' || c = '\n' || c = '\r' || c = '\x0b' || c = '\x0c'

/-- Wordness of an optional character; out-of-string counts as non-word,
matching Python's `\b` semantics at the ends of the subject string. -/
def isWordO : Option Char → Bool
  | some c => isWordChar c
  | none => false

/-- Python `str.lower()` restricted to ASCII. -/
def pyLower (s : String) : String := String.mk (s.toList.map Char.toLower)

/-- Regex abstract syntax: the constructs used by the patterns that appear
in `skill_extractor.py`.  `chrCI` is a case-insensitive literal character,
used for the `re.IGNORECASE` degree patterns. -/
inductive Rx where
  | eps : Rx
  | cls (p : Char → Bool) : Rx
  | chrCI (c : Char) : Rx
  | seq (a b : Rx) : Rx
  | alt (a b : Rx) : Rx
  | star (a : Rx) : Rx
  | opt (a : Rx) : Rx
  | wb : Rx
  | cap (a : Rx) : Rx

/-- Matcher state: the character just before the current position (for
word boundaries), the remaining input, and the captured group if any. -/
structure MSt where
  prev : Option Char
  rest : List Char
  capv : Option (List Char)

/-- Size of a regex, used only to bound the matcher's fuel. -/
def Rx.size : Rx → Nat
  | .eps => 1
  | .cls _ => 1
  | .chrCI _ => 1
  | .seq a b => a.size + b.size + 1
  | .alt a b => a.size + b.size + 1
  | .star a => a.size + 1
  | .opt a => a.size + 1
  | .wb => 1
  | .cap a => a.size + 1

/-- Backtracking matcher.  Returns every reachable state after matching
`rx` from `st`, in Python `re` priority order: alternation prefers its
left branch, `opt` and `star` prefer consuming more.  A `star` iteration
must consume input, which bounds the recursion; `fuel` only needs to
exceed the pattern size plus the number of star iterations. -/
def runRx : Nat → Rx → MSt → List MSt
  | 0, _, _ => []
  | fuel + 1, rx, st =>
    match rx with
    | .eps => [st]
    | .cls p =>
      match st.rest with
      | [] => []
      | c :: cs => if p c then [⟨some c, cs, st.capv⟩] else []
    | .chrCI c =>
      match st.rest with
      | [] => []
      | x :: cs => if x.toLower = c.toLower then [⟨some x, cs, st.capv⟩] else []
    | .seq a b => (runRx fuel a st).flatMap (runRx fuel b)
    | .alt a b => runRx fuel a st ++ runRx fuel b st
    | .star a =>
      ((runRx fuel a st).filter (fun st2 => st2.rest.length < st.rest.length)).flatMap
        (runRx fuel (.star a)) ++ [st]
    | .opt a => runRx fuel a st ++ [st]
    | .wb => if isWordO st.prev != isWordO st.rest.head? then [st] else []
    | .cap a =>
      (runRx fuel a st).map
        (fun st2 => ⟨st2.prev, st2.rest, some (st.rest.take (st.rest.length - st2.rest.length))⟩)

/-- Fuel that always suffices for `runRx` on input `l`. -/
def rxFuel (rx : Rx) (l : List Char) : Nat := (rx.size + 2) * (l.length + 2)

/-- The scanning loop of `re.findall`, structurally recursive on a fuel
that bounds the number of scan steps (each step consumes at least one
input character). -/
def findAllRxFuel (rx : Rx) : Nat → Option Char → List Char → List (List Char)
  | 0, _, _ => []
  | f + 1, prev, l =>
    match (runRx (rxFuel rx l) rx ⟨prev, l, none⟩).head? with
    | some st2 =>
      let item := st2.capv.getD (l.take (l.length - st2.rest.length))
      if st2.rest.length < l.length then
        item :: findAllRxFuel rx f st2.prev st2.rest
      else
        match l with
        | [] => [item]
        | c :: t => item :: findAllRxFuel rx f (some c) t
    | none =>
      match l with
      | [] => []
      | c :: t => findAllRxFuel rx f (some c) t

/-- `re.findall`: scan left to right; at each position take the
highest-priority match of `rx` if any, emit its capture (or, with no
group, the whole matched text, as Python does), and resume after the
match.  `prev` is the character before the current position. -/
def findAllRx (rx : Rx) (prev : Option Char) (l : List Char) : List (List Char) :=
  findAllRxFuel rx (l.length + 1) prev l

/-- Scanning loop of `re.search`, fuel-recursive like `findAllRxFuel`. -/
def searchRxFuel (rx : Rx) : Nat → Option Char → List Char → Bool
  | 0, _, _ => false
  | f + 1, prev, l =>
    !(runRx (rxFuel rx l) rx ⟨prev, l, none⟩).isEmpty ||
      (match l with
       | [] => false
       | c :: t => searchRxFuel rx f (some c) t)

/-- `re.search` as a Boolean: does `rx` match anywhere in `l`? -/
def searchRx (rx : Rx) (prev : Option Char) (l : List Char) : Bool :=
  searchRxFuel rx (l.length + 1) prev l

/-- A literal character. -/
def chrL (c : Char) : Rx := .cls (fun x => x = c)

/-- A literal character sequence (the translation of `re.escape`d text). -/
def litL : List Char → Rx
  | [] => .eps
  | c :: cs => .seq (chrL c) (litL cs)

/-- A literal string pattern. -/
def litS (s : String) : Rx := litL s.toList

/-- A case-insensitive literal string pattern (for `re.IGNORECASE`). -/
def litCI (s : String) : Rx :=
  s.toList.foldr (fun c r => .seq (.chrCI c) r) .eps

/-- `x+` : one or more, greedy. -/
def plusRx (a : Rx) : Rx := .seq a (.star a)

/-- `x{n}` : exactly n repetitions. -/
def repN (a : Rx) : Nat → Rx
  | 0 => .eps
  | n + 1 => .seq a (repN a n)

/-- `x{1,3}` greedy: tries three, then two, then one. -/
def rep1to3 (a : Rx) : Rx := .seq a (.opt (.seq a (.opt a)))

/-- Left-biased alternation of a non-empty list of branches. -/
def altL : List Rx → Rx
  | [] => .eps
  | [a] => a
  | a :: rest => .alt a (altL rest)

/-! ## The skill vocabulary (backend/config.py, `Config.KNOWN_SKILLS`) -/

/-- `Config.KNOWN_SKILLS`, in source declaration order. -/
def KNOWN_SKILLS : List String := [
  "Python", "JavaScript", "Java", "C++", "C#", "Ruby", "PHP", "Go",
  "TypeScript", "Swift", "Kotlin", "Rust", "Scala", "R",
  "React", "Angular", "Vue.js", "Flask", "Django", "Express.js",
  "Spring Boot", "ASP.NET", "Laravel", "Ruby on Rails",
  "MongoDB", "MySQL", "PostgreSQL", "SQLite", "Redis", "Oracle",
  "SQL Server", "Cassandra", "DynamoDB", "Firebase",
  "AWS", "Azure", "Google Cloud", "Docker", "Kubernetes", "Jenkins",
  "Git", "GitHub", "GitLab", "CI/CD", "Terraform",
  "Machine Learning", "Deep Learning", "TensorFlow", "PyTorch",
  "NLP", "Computer Vision", "scikit-learn", "Keras",
  "REST API", "GraphQL", "Microservices", "Agile", "Scrum",
  "HTML", "CSS", "Bootstrap", "Tailwind CSS", "Node.js"]

/-- `self.known_skills`: the lowercase membership set built in
`SkillExtractor.__init__` (modelled as a list; only membership is used). -/
def known_skills : List String := KNOWN_SKILLS.map pyLower

/-- `self.skill_variations`: the alias table, in source (dict insertion)
order. -/
def skill_variations : List (String × List String) := [
  ("javascript", ["js", "javascript", "java script", "ecmascript"]),
  ("node.js", ["nodejs", "node.js", "node js", "expressjs", "express.js"]),
  ("react", ["react", "reactjs", "react.js", "react native"]),
  ("python", ["python", "python3", "python 3"]),
  ("sql", ["sql", "mysql", "postgresql", "sqlite", "tsql", "t-sql"]),
  ("html/css", ["html", "css", "html5", "css3", "scss", "sass"]),
  ("c++", ["c++", "cpp", "c plus plus"]),
  ("c#", ["c#", "csharp", "c sharp"])]

/-- `SkillExtractor._find_original_case`: first vocabulary entry whose
lowercasing equals the argument, else `none`. -/
def find_original_case (skill_lower : String) : Option String :=
  KNOWN_SKILLS.find? (fun skill => pyLower skill = skill_lower)

/-! ## The regex patterns of skill_extractor.py -/

/-- Character class of `[\w\+\#\.]`. -/
def isTokenChar (c : Char) : Bool := isWordChar c || c = '+' || c = '#' || c = '.'

/-- Method 1 tokenization pattern, Python `r'\b[\w\+\#\.]+\b'`. -/
def token_pattern : Rx := .seq .wb (.seq (plusRx (.cls isTokenChar)) .wb)

/-- Method 3 alias pattern, Python `r'\b' + re.escape(variation) + r'\b'`. -/
def variation_pattern (v : String) : Rx := .seq .wb (.seq (litS v) .wb)

/-- Character class of the context-capture group `[a-z\+\#\. ]`. -/
def isCtxChar (c : Char) : Bool :=
  ('a' ≤ c && c ≤ 'z') || c = '+' || c = '#' || c = '.' || c = ' '

/-- The capturing tail `([a-z\+\#\. ]+)` shared by the context patterns. -/
def ctxCapture : Rx := .cap (plusRx (.cls isCtxChar))

/-- Method 4 `context_patterns`, in source order. -/
def context_patterns : List Rx := [
  .seq (litS "proficient in ") ctxCapture,
  .seq (litS "experience ") (.seq (.alt (litS "with") (litS "in")) (.seq (litS " ") ctxCapture)),
  .seq (litS "knowledge of ") ctxCapture,
  .seq (litS "skilled in ") ctxCapture,
  .seq (litS "expertise in ") ctxCapture,
  .seq (litS "working with ") ctxCapture]

/-- `\d`. -/
def digitRx : Rx := .cls Char.isDigit

/-- `\s`. -/
def wsRx : Rx := .cls isSpaceChar

/-- `r'(\d+)\+?\s*years?\s+(?:of\s+)?experience'`. -/
def exp_pattern1 : Rx :=
  .seq (.cap (plusRx digitRx)) (.seq (.opt (chrL '+')) (.seq (.star wsRx)
    (.seq (litS "year") (.seq (.opt (chrL 's')) (.seq (plusRx wsRx)
      (.seq (.opt (.seq (litS "of") (plusRx wsRx))) (litS "experience")))))))

/-- `r'(\d+)\+?\s*years?\s+(?:in|with)'`. -/
def exp_pattern2 : Rx :=
  .seq (.cap (plusRx digitRx)) (.seq (.opt (chrL '+')) (.seq (.star wsRx)
    (.seq (litS "year") (.seq (.opt (chrL 's')) (.seq (plusRx wsRx)
      (.alt (litS "in") (litS "with")))))))

/-- `r'experience[:\s]+(\d+)\+?\s*years?'`. -/
def exp_pattern3 : Rx :=
  .seq (litS "experience") (.seq (plusRx (.cls (fun c => c = ':' || isSpaceChar c)))
    (.seq (.cap (plusRx digitRx)) (.seq (.opt (chrL '+')) (.seq (.star wsRx)
      (.seq (litS "year") (.opt (chrL 's')))))))

/-- `experience_patterns` of `extract_experience_years`, in source order. -/
def experience_patterns : List Rx := [exp_pattern1, exp_pattern2, exp_pattern3]

/-- Character class `[A-Za-z0-9._%+-]` (email local part). -/
def isEmailLocal (c : Char) : Bool :=
  c.isAlpha || c.isDigit || c = '.' || c = '_' || c = '%' || c = '+' || c = '-'

/-- Character class `[A-Za-z0-9.-]` (email domain). -/
def isEmailDomain (c : Char) : Bool :=
  c.isAlpha || c.isDigit || c = '.' || c = '-'

/-- Character class `[A-Z|a-z]` — the source pattern literally includes
the bar character in the class. -/
def isTldChar (c : Char) : Bool :=
  ('A' ≤ c && c ≤ 'Z') || c = '|' || ('a' ≤ c && c ≤ 'z')

/-- `r'\b[A-Za-z0-9._%+-]+@[A-Za-z0-9.-]+\.[A-Z|a-z]{2,}\b'`. -/
def email_pattern : Rx :=
  .seq .wb (.seq (plusRx (.cls isEmailLocal)) (.seq (chrL '@')
    (.seq (plusRx (.cls isEmailDomain)) (.seq (chrL '.')
      (.seq (.cls isTldChar) (.seq (plusRx (.cls isTldChar)) .wb))))))

/-- Character class `[-.\s]` (phone separators). -/
def isSepChar (c : Char) : Bool := c = '-' || c = '.' || isSpaceChar c

/-- `r'\+?\d{1,3}[-.\s]?\(?\d{3}\)?[-.\s]?\d{3}[-.\s]?\d{4}'`. -/
def phone_pattern1 : Rx :=
  .seq (.opt (chrL '+')) (.seq (rep1to3 digitRx) (.seq (.opt (.cls isSepChar))
    (.seq (.opt (chrL '(')) (.seq (repN digitRx 3) (.seq (.opt (chrL ')'))
      (.seq (.opt (.cls isSepChar)) (.seq (repN digitRx 3)
        (.seq (.opt (.cls isSepChar)) (repN digitRx 4)))))))))

/-- `r'\b\d{10}\b'`. -/
def phone_pattern2 : Rx := .seq .wb (.seq (repN digitRx 10) .wb)

/-- `r'\b\d{3}[-.\s]?\d{3}[-.\s]?\d{4}\b'`. -/
def phone_pattern3 : Rx :=
  .seq .wb (.seq (repN digitRx 3) (.seq (.opt (.cls isSepChar))
    (.seq (repN digitRx 3) (.seq (.opt (.cls isSepChar)) (.seq (repN digitRx 4) .wb)))))

/-- `phone_patterns`, in source order. -/
def phone_patterns : List Rx := [phone_pattern1, phone_pattern2, phone_pattern3]

/-- `r'\b(B\.?Tech|Bachelor of Technology|BE|B\.E\.|Bachelor of Engineering)\b'`
under `re.IGNORECASE`. -/
def degree_pattern1 : Rx :=
  .seq .wb (.seq (.cap (altL [
    .seq (.chrCI 'B') (.seq (.opt (.chrCI '.')) (litCI "Tech")),
    litCI "Bachelor of Technology",
    litCI "BE",
    litCI "B.E.",
    litCI "Bachelor of Engineering"])) .wb)

/-- `r'\b(M\.?Tech|Master of Technology|ME|M\.E\.|Master of Engineering)\b'`. -/
def degree_pattern2 : Rx :=
  .seq .wb (.seq (.cap (altL [
    .seq (.chrCI 'M') (.seq (.opt (.chrCI '.')) (litCI "Tech")),
    litCI "Master of Technology",
    litCI "ME",
    litCI "M.E.",
    litCI "Master of Engineering"])) .wb)

/-- `r'\b(MBA|Master of Business Administration)\b'`. -/
def degree_pattern3 : Rx :=
  .seq .wb (.seq (.cap (altL [
    litCI "MBA",
    litCI "Master of Business Administration"])) .wb)

/-- `r'\b(B\.?Sc|Bachelor of Science|M\.?Sc|Master of Science)\b'`. -/
def degree_pattern4 : Rx :=
  .seq .wb (.seq (.cap (altL [
    .seq (.chrCI 'B') (.seq (.opt (.chrCI '.')) (litCI "Sc")),
    litCI "Bachelor of Science",
    .seq (.chrCI 'M') (.seq (.opt (.chrCI '.')) (litCI "Sc")),
    litCI "Master of Science"])) .wb)

/-- `r'\b(BCA|Bachelor of Computer Applications|MCA|Master of Computer Applications)\b'`. -/
def degree_pattern5 : Rx :=
  .seq .wb (.seq (.cap (altL [
    litCI "BCA",
    litCI "Bachelor of Computer Applications",
    litCI "MCA",
    litCI "Master of Computer Applications"])) .wb)

/-- `r'\b(PhD|Ph\.D\.|Doctorate)\b'`. -/
def degree_pattern6 : Rx :=
  .seq .wb (.seq (.cap (altL [
    litCI "PhD",
    litCI "Ph.D.",
    litCI "Doctorate"])) .wb)

/-- `degree_patterns`, in source order. -/
def degree_patterns : List Rx := [degree_pattern1, degree_pattern2, degree_pattern3,
  degree_pattern4, degree_pattern5, degree_pattern6]

/-! ## String helpers used by `extract_skills` -/

/-- Fuel-recursive worker for `pySplit`; the fuel bounds the number of
words plus skipped spaces, so the input length always suffices. -/
def pySplitFuel : Nat → List Char → List (List Char)
  | 0, _ => []
  | _ + 1, [] => []
  | f + 1, c :: t =>
    if isSpaceChar c then pySplitFuel f t
    else
      (c :: t).takeWhile (fun x => !isSpaceChar x) ::
        pySplitFuel f ((c :: t).dropWhile (fun x => !isSpaceChar x))

/-- Python `str.split()` with no argument: whitespace-separated words,
empty pieces dropped. -/
def pySplit (l : List Char) : List (List Char) := pySplitFuel (l.length + 1) l

/-- Python substring test `needle in hay`. -/
def containsSub (hay needle : List Char) : Bool :=
  needle.isPrefixOf hay ||
    (match hay with
     | [] => false
     | _ :: t => containsSub t needle)

/-- Does the list start with the separator `\sand\s` (a whitespace
character, the letters `and`, a whitespace character)? -/
def startsWithAndSep : List Char → Bool
  | w1 :: 'a' :: 'n' :: 'd' :: w2 :: _ => isSpaceChar w1 && isSpaceChar w2
  | _ => false

/-- Fuel-recursive worker for `splitSep`, scanning for the leftmost
separator (a comma, or whitespace-`and`-whitespace). -/
def splitSepFuel : Nat → List Char → List Char → List (List Char)
  | 0, cur, _ => [cur.reverse]
  | _ + 1, cur, [] => [cur.reverse]
  | f + 1, cur, c :: t =>
    if c = ',' then cur.reverse :: splitSepFuel f [] t
    else if startsWithAndSep (c :: t) then
      cur.reverse :: splitSepFuel f [] ((c :: t).drop 5)
    else splitSepFuel f (c :: cur) t

/-- `re.split(r',|\sand\s', s)`: split at each leftmost occurrence of a
comma or of whitespace-`and`-whitespace, scanning left to right. -/
def splitSep (l : List Char) : List (List Char) := splitSepFuel (l.length + 1) [] l

/-- Python `str.strip()`: remove leading and trailing whitespace. -/
def pyStrip (l : List Char) : List Char :=
  ((l.dropWhile isSpaceChar).reverse.dropWhile isSpaceChar).reverse

/-- Python `int` on a run of decimal digits. -/
def parseNat (l : List Char) : Nat :=
  l.foldl (fun a c => a * 10 + (c.toNat - '0'.toNat)) 0

/-- Lexicographic comparison of character lists by code point: the order
Python's `sorted` uses on strings. -/
def charListLe : List Char → List Char → Bool
  | [], _ => true
  | _ :: _, [] => false
  | a :: as, b :: bs =>
    if a.toNat < b.toNat then true
    else if b.toNat < a.toNat then false
    else charListLe as bs

/-- Python string `<=` (code-point lexicographic). -/
def strLe (a b : String) : Bool := charListLe a.toList b.toList

/-- The ordering relation used to model Python `sorted` on strings. -/
def strLeR (a b : String) : Prop := strLe a b = true

instance : DecidableRel strLeR :=
  fun a b => inferInstanceAs (Decidable (strLe a b = true))

/-! ## `SkillExtractor.extract_skills` (backend/utils/skill_extractor.py) -/

/-- Method 1 word tokens: `re.findall(r'\b[\w\+\#\.]+\b', text_lower)`. -/
def wordTokens (textLower : List Char) : List String :=
  (findAllRx token_pattern none textLower).map (fun w => String.mk w)

/-- Method 1: direct word matching.  Each token found in the lowercase
vocabulary contributes `_find_original_case(word)` — an `Option String`,
exactly as the Python code adds the possibly-`None` lookup result. -/
def method1 (textLower : List Char) : List (Option String) :=
  (wordTokens textLower).filterMap (fun word =>
    if word ∈ known_skills then some (find_original_case word) else none)

/-- Method 2: multi-word skills by case-insensitive substring presence. -/
def method2 (textLower : List Char) : List (Option String) :=
  KNOWN_SKILLS.filterMap (fun skill =>
    if (pySplit skill.toList).length > 1 && containsSub textLower (pyLower skill).toList
    then some (some skill) else none)

/-- Method 3: skill variations, word-boundary regex per alias; the
standard skill is added only when `_find_original_case` returns a truthy
value (the `if original_skill:` guard). -/
def method3 (textLower : List Char) : List (Option String) :=
  skill_variations.filterMap (fun sv =>
    if sv.2.any (fun v => searchRx (variation_pattern v) none textLower) then
      match find_original_case sv.1 with
      | some o => if o = "" then none else some (some o)
      | none => none
    else none)

/-- Method 4: context patterns; each capture is split on commas and
`and`, stripped, and checked against the lowercase vocabulary. -/
def method4 (textLower : List Char) : List (Option String) :=
  context_patterns.flatMap (fun pat =>
    (findAllRx pat none textLower).flatMap (fun m =>
      (splitSep m).filterMap (fun piece =>
        let skill_text := String.mk (pyStrip piece)
        if skill_text ∈ known_skills then some (find_original_case skill_text) else none)))

/-- The `found_skills` accumulator of `extract_skills`: every value the
four methods add, as the `Option String` values Python inserts. -/
def found_skills (text : String) : List (Option String) :=
  let textLower := (pyLower text).toList
  method1 textLower ++ method2 textLower ++ method3 textLower ++ method4 textLower

/-- `SkillExtractor.extract_skills`: the guard for falsy input, the four
methods' union as a set, and `sorted(...)` (ascending string order). -/
def extract_skills (text : String) : List String :=
  if text = "" then []
  else List.insertionSort strLeR (found_skills text).reduceOption.dedup

/-! ## The field extractors -/

/-- `SkillExtractor.extract_email`: first match of the email pattern. -/
def extract_email (text : String) : Option String :=
  ((findAllRx email_pattern none text.toList).map (fun m => String.mk m)).head?

/-- `SkillExtractor.extract_phone`: first pattern with a match wins,
returning that pattern's first match. -/
def extract_phone (text : String) : Option String :=
  phone_patterns.findSome? (fun pat =>
    ((findAllRx pat none text.toList).map (fun m => String.mk m)).head?)

/-- `SkillExtractor.extract_education`: first degree pattern with a
match wins (patterns run with `re.IGNORECASE` on the raw text). -/
def extract_education (text : String) : Option String :=
  degree_patterns.findSome? (fun pat =>
    ((findAllRx pat none text.toList).map (fun m => String.mk m)).head?)

/-- The `years` list of `extract_experience_years`: every captured
integer from the three patterns over the case-folded text. -/
def experience_years_found (text : String) : List Nat :=
  experience_patterns.flatMap (fun pat =>
    (findAllRx pat none (pyLower text).toList).map parseNat)

/-- `SkillExtractor.extract_experience_years`: `max(years)` when any
were collected, else `0`. -/
def extract_experience_years (text : String) : Nat :=
  match experience_years_found text with
  | [] => 0
  | y :: ys => ys.foldl max y

/-! ## `SkillExtractor.calculate_confidence` -/

/-- `calculate_confidence(skills_found, text_length)`; numeric work is
modelled in `ℚ` (`text_length / 100` is Python float division; the spec
declares `textLength` an integer, so the argument is `ℤ`). -/
def calculate_confidence (skills_found : List String) (text_length : ℤ) : ℚ :=
  let skill_score : ℚ := min ((skills_found.length : ℚ) * 5) 50
  let length_score : ℚ := min ((text_length : ℚ) / 100) 40
  let base_score : ℚ := 5
  min (base_score + skill_score + length_score) 95

/-! ## `Application.calculate_match_score` (backend/models/application.py) -/

/-- Python `round` ties-to-even on an exact rational. -/
def py_round (q : ℚ) : ℤ :=
  if q - ⌊q⌋ = 1 / 2 then (if ⌊q⌋ % 2 = 0 then ⌊q⌋ else ⌊q⌋ + 1) else round q

/-- Python `round(x, 2)`. -/
def py_round2 (q : ℚ) : ℚ := (py_round (q * 100) : ℚ) / 100

/-- The partition loop of `calculate_match_score`: walk the required
skills, appending each to `matching` or `missing` by case-insensitive
membership in the student's skills. -/
def matchPartition (student_skills_lower : List String) :
    List String → List String × List String
  | [] => ([], [])
  | required_skill :: rest =>
    let mm := matchPartition student_skills_lower rest
    if pyLower required_skill ∈ student_skills_lower
    then (required_skill :: mm.1, mm.2)
    else (mm.1, required_skill :: mm.2)

/-- `Application.calculate_match_score` as a function of the two skill
lists, returning `(matching_skills, missing_skills, match_score)`. -/
def calculate_match_score (job_required_skills student_skills : List String) :
    List String × List String × ℚ :=
  let student_skills_lower := student_skills.map pyLower
  let mm := matchPartition student_skills_lower job_required_skills
  let score : ℚ :=
    if job_required_skills.length > 0
    then ((mm.1.length : ℚ) / (job_required_skills.length : ℚ)) * 100
    else 0
  (mm.1, mm.2, py_round2 score)

/-! ## Helper lemmas -/

theorem charListLe_total : ∀ a b : List Char, charListLe a b = true ∨ charListLe b a = true
  | [], _ => Or.inl rfl
  | _ :: _, [] => Or.inr rfl
  | x :: xs, y :: ys => by
    simp only [charListLe]
    rcases Nat.lt_trichotomy x.toNat y.toNat with h | h | h
    · simp [h, Nat.not_lt_of_lt h]
    · simp only [h, Nat.lt_irrefl, if_false]
      exact charListLe_total xs ys
    · simp [h, Nat.not_lt_of_lt h]

theorem charListLe_trans : ∀ a b c : List Char,
    charListLe a b = true → charListLe b c = true → charListLe a c = true
  | [], _, _, _, _ => rfl
  | x :: xs, [], c, hab, _ => by simp [charListLe] at hab
  | x :: xs, y :: ys, [], _, hbc => by simp [charListLe] at hbc
  | x :: xs, y :: ys, z :: zs, hab, hbc => by
    simp only [charListLe] at hab hbc ⊢
    split_ifs at hab hbc ⊢ <;> first
      | rfl
      | omega
      | exact charListLe_trans xs ys zs hab hbc

/-- Totality of the Python string order. -/
instance : IsTotal String strLeR :=
  ⟨fun a b => charListLe_total a.toList b.toList⟩

/-- Transitivity of the Python string order. -/
instance : IsTrans String strLeR :=
  ⟨fun a b c => charListLe_trans a.toList b.toList c.toList⟩

/-- A successful `_find_original_case` lookup returns a vocabulary entry. -/
theorem find_original_case_mem {w s : String} (h : find_original_case w = some s) :
    s ∈ KNOWN_SKILLS :=
  List.mem_of_find?_eq_some h

/-- `_find_original_case` succeeds on every member of the lowercase set. -/
theorem find_original_case_isSome {w : String} (h : w ∈ known_skills) :
    (find_original_case w).isSome := by
  obtain ⟨sk, hsk, rfl⟩ := List.mem_map.mp h
  have : find_original_case (pyLower sk) ≠ none := by
    intro hn
    have := List.find?_eq_none.mp hn sk hsk
    simp at this
  exact Option.ne_none_iff_isSome.mp this

/-- The partition loop of `calculate_match_score` computes the two
filters of the required-skill list. -/
theorem matchPartition_eq (sl : List String) (req : List String) :
    matchPartition sl req =
      (req.filter (fun r => decide (pyLower r ∈ sl)),
       req.filter (fun r => !decide (pyLower r ∈ sl))) := by
  induction req with
  | nil => rfl
  | cons r rest ih =>
    simp only [matchPartition, ih, List.filter_cons]
    by_cases h : pyLower r ∈ sl <;> simp [h]

/-- `py_round2` fixes integers. -/
theorem py_round2_intCast (z : ℤ) : py_round2 ((z : ℚ)) = (z : ℚ) := by
  unfold py_round2 py_round
  rw [show ((z : ℚ) * 100) = (((z * 100 : ℤ) : ℚ)) by push_cast; ring]
  rw [Int.floor_intCast]
  have h2 : ¬(((z * 100 : ℤ) : ℚ) - ((z * 100 : ℤ) : ℚ) = 1 / 2) := by norm_num
  rw [if_neg h2, round_intCast]
  push_cast
  ring

theorem foldl_max_init_le (l : List Nat) : ∀ (a : Nat), a ≤ l.foldl max a := by
  induction l with
  | nil => intro a; exact le_rfl
  | cons x xs ih =>
    intro a
    exact le_trans (le_max_left a x) (ih (max a x))

theorem foldl_max_le (l : List Nat) : ∀ (a : Nat), ∀ y ∈ l, y ≤ l.foldl max a := by
  induction l with
  | nil => intro a y hy; cases hy
  | cons x xs ih =>
    intro a y hy
    simp only [List.foldl_cons]
    rcases List.mem_cons.mp hy with rfl | hy
    · exact le_trans (le_max_right a y) (foldl_max_init_le xs (max a y))
    · exact ih (max a x) y hy

theorem foldl_max_mem (l : List Nat) : ∀ (a : Nat), l.foldl max a ∈ l ∨ l.foldl max a = a := by
  induction l with
  | nil => intro a; exact Or.inr rfl
  | cons x xs ih =>
    intro a
    simp only [List.foldl_cons]
    rcases ih (max a x) with h | h
    · exact Or.inl (List.mem_cons_of_mem x h)
    · rcases Nat.le_total a x with hax | hxa
      · exact Or.inl (by rw [h, max_eq_right hax]; exact List.mem_cons_self x xs)
      · exact Or.inr (by rw [h, max_eq_left hxa])

/-- Every accumulated value is `some` of a vocabulary member; this is the
common shape of the four methods' contributions. -/
theorem found_skills_spec {text : String} {o : Option String}
    (h : o ∈ found_skills text) : ∃ s, o = some s ∧ s ∈ KNOWN_SKILLS := by
  unfold found_skills at h
  rcases List.mem_append.mp h with h | h4
  rcases List.mem_append.mp h with h | h3
  rcases List.mem_append.mp h with h1 | h2
  · -- Method 1
    obtain ⟨w, _, hw⟩ := List.mem_filterMap.mp h1
    by_cases hk : w ∈ known_skills
    · rw [if_pos hk] at hw
      obtain ⟨v, hv⟩ := Option.isSome_iff_exists.mp (find_original_case_isSome hk)
      refine ⟨v, ?_, find_original_case_mem hv⟩
      rw [← Option.some_inj.mp hw, hv]
    · rw [if_neg hk] at hw
      cases hw
  · -- Method 2
    obtain ⟨sk, hsk, hw⟩ := List.mem_filterMap.mp h2
    by_cases hc : ((pySplit sk.toList).length > 1 &&
        containsSub ((pyLower text).toList) (pyLower sk).toList) = true
    · rw [if_pos hc] at hw
      exact ⟨sk, (Option.some_inj.mp hw).symm, hsk⟩
    · rw [if_neg hc] at hw
      cases hw
  · -- Method 3
    obtain ⟨sv, _, hw⟩ := List.mem_filterMap.mp h3
    by_cases hc : (sv.2.any fun v =>
        searchRx (variation_pattern v) none ((pyLower text).toList)) = true
    · rw [if_pos hc] at hw
      rcases hfo : find_original_case sv.1 with _ | v
      · rw [hfo] at hw; cases hw
      · rw [hfo] at hw
        simp only at hw
        by_cases hv : v = ""
        · rw [if_pos hv] at hw; cases hw
        · rw [if_neg hv] at hw
          exact ⟨v, (Option.some_inj.mp hw).symm, find_original_case_mem hfo⟩
    · rw [if_neg hc] at hw
      cases hw
  · -- Method 4
    obtain ⟨pat, _, hin⟩ := List.mem_flatMap.mp h4
    obtain ⟨m, _, hin2⟩ := List.mem_flatMap.mp hin
    obtain ⟨piece, _, hw⟩ := List.mem_filterMap.mp hin2
    by_cases hk : String.mk (pyStrip piece) ∈ known_skills
    · rw [if_pos hk] at hw
      obtain ⟨v, hv⟩ := Option.isSome_iff_exists.mp (find_original_case_isSome hk)
      refine ⟨v, ?_, find_original_case_mem hv⟩
      rw [← Option.some_inj.mp hw, hv]
    · rw [if_neg hk] at hw
      cases hw

/-- `py_round2` fixes zero. -/
theorem py_round2_zero : py_round2 0 = 0 := by
  have := py_round2_intCast 0
  simpa using this

/-! ## Claim theorems -/

/-- C1: the match scorer partitions `requiredSkills`, preserving order and
casing, into the skills case-insensitively present in `candidateSkills`
and the rest, and sets the score to `round(100 * m / n, 2)` for non-empty
required skills and `0.0` otherwise; on the spec's example it yields
`(["Python", "Flask"], ["MongoDB", "React"], 50.0)`. -/
theorem computeMatch_partitions_and_scores :
    (∀ req cand : List String,
      calculate_match_score req cand =
        (req.filter (fun r => decide (pyLower r ∈ cand.map pyLower)),
         req.filter (fun r => !decide (pyLower r ∈ cand.map pyLower)),
         if req.length > 0
         then py_round2 (100 *
           ((req.filter (fun r => decide (pyLower r ∈ cand.map pyLower))).length : ℚ) /
           (req.length : ℚ))
         else 0)) ∧
    calculate_match_score ["Python", "Flask", "MongoDB", "React"]
        ["Python", "Flask", "JavaScript"]
      = (["Python", "Flask"], ["MongoDB", "React"], 50) := by
  constructor
  · intro req cand
    simp only [calculate_match_score, matchPartition_eq, Prod.mk.injEq, true_and]
    by_cases h : req.length > 0
    · rw [if_pos h, if_pos h]
      congr 1
      ring
    · rw [if_neg h, if_neg h]
      exact py_round2_zero
  · have hpart : matchPartition (["Python", "Flask", "JavaScript"].map pyLower)
        ["Python", "Flask", "MongoDB", "React"] = (["Python", "Flask"], ["MongoDB", "React"]) := by
      decide
    simp only [calculate_match_score, hpart, Prod.mk.injEq, true_and]
    rw [if_pos (by norm_num)]
    rw [show ((["Python", "Flask"].length : ℚ) / (["Python", "Flask", "MongoDB", "React"].length : ℚ) * 100) = ((50 : ℤ) : ℚ) by norm_num]
    rw [py_round2_intCast]
    norm_num

/-- C6 counterexample: the concatenation `matchingSkills ++ missingSkills`
is in general not equal (as a list) to the required-skill list — here a
missing skill precedes a matching one. -/
theorem computeMatch_concat_counterexample :
    ¬((calculate_match_score ["A", "B"] ["b"]).1 ++ (calculate_match_score ["A", "B"] ["b"]).2.1
      = ["A", "B"]) := by decide

/-- C6 (amended): `matchingSkills ++ missingSkills` is a permutation of
the required-skill list (each required-skill occurrence lands in exactly
one of the two outputs); when the required list has no duplicates neither
does the combined output; and the score is `round(100 * m / n, 2)`
(`0` for an empty required list). -/
theorem computeMatch_partition_invariant :
    ∀ req cand : List String,
      ((calculate_match_score req cand).1 ++ (calculate_match_score req cand).2.1).Perm req ∧
      (req.Nodup → ((calculate_match_score req cand).1 ++
        (calculate_match_score req cand).2.1).Nodup) ∧
      (calculate_match_score req cand).2.2 =
        (if req.length > 0
         then py_round2 (100 * (((calculate_match_score req cand).1).length : ℚ) /
           (req.length : ℚ))
         else 0) := by
  intro req cand
  have h1 : (calculate_match_score req cand).1 =
      req.filter (fun r => decide (pyLower r ∈ cand.map pyLower)) := by
    simp [calculate_match_score, matchPartition_eq]
  have h2 : (calculate_match_score req cand).2.1 =
      req.filter (fun r => !decide (pyLower r ∈ cand.map pyLower)) := by
    simp [calculate_match_score, matchPartition_eq]
  have hperm : ((calculate_match_score req cand).1 ++
      (calculate_match_score req cand).2.1).Perm req := by
    rw [h1, h2]
    exact List.filter_append_perm _ req
  refine ⟨hperm, fun hnd => hperm.symm.nodup hnd, ?_⟩
  simp only [calculate_match_score, matchPartition_eq, Prod.mk.injEq, true_and]
  by_cases h : req.length > 0
  · rw [if_pos h, if_pos h]
    congr 1
    ring
  · rw [if_neg h, if_neg h]
    exact py_round2_zero

/-- C6 witness: the amended invariant at a concrete input with a
duplicate-free required list. -/
theorem computeMatch_partition_invariant_witness :
    ((calculate_match_score ["A", "B"] ["b"]).1 ++
      (calculate_match_score ["A", "B"] ["b"]).2.1).Nodup :=
  (computeMatch_partition_invariant ["A", "B"] ["b"]).2.1 (by decide)

/-- C4 counterexample: at a negative `textLength` the confidence drops
below the claimed floor of `5` (the length contribution is unbounded
below), refuting the bound claimed for every integer text length. -/
theorem calculate_confidence_negative_counterexample :
    ¬(5 ≤ calculate_confidence [] (-100000)) := by
  simp only [calculate_confidence, List.length_nil]
  push_cast
  norm_num [min_def]

/-- C4 (amended): for every skill list and every nonnegative text length
the confidence lies in `[5, 95]` and equals the clamp of
`5 + min(|skills| * 5, 50) + min(length / 100, 40)` to at most `95`;
`calculateConfidence([], 0) = 5`. -/
theorem calculate_confidence_bounds :
    (∀ (skills : List String) (len : ℤ), 0 ≤ len →
      5 ≤ calculate_confidence skills len ∧ calculate_confidence skills len ≤ 95 ∧
      calculate_confidence skills len =
        min (5 + min ((skills.length : ℚ) * 5) 50 + min ((len : ℚ) / 100) 40) 95) ∧
    calculate_confidence [] 0 = 5 := by
  constructor
  · intro skills len hlen
    have hs : (0 : ℚ) ≤ min ((skills.length : ℚ) * 5) 50 :=
      le_min (by positivity) (by norm_num)
    have hql : (0 : ℚ) ≤ (len : ℚ) := by exact_mod_cast hlen
    have hl : (0 : ℚ) ≤ min ((len : ℚ) / 100) 40 :=
      le_min (by positivity) (by norm_num)
    refine ⟨?_, ?_, rfl⟩
    · exact le_min (by linarith) (by norm_num)
    · exact min_le_right _ _
  · simp only [calculate_confidence, List.length_nil]
    push_cast
    norm_num [min_def]

/-- C4 witness: the amended bounds at the empty list and length zero. -/
theorem calculate_confidence_bounds_witness : 5 ≤ calculate_confidence [] 0 :=
  (calculate_confidence_bounds.1 [] 0 (by norm_num)).1

/-- C2: the code at the failing input.  The trailing `\b` of the token
pattern `r'\b[\w\+\#\.]+\b'` cannot match after `+` or `#`, so `"c++"`
tokenizes to `"c"` (while `"node.js"`, ending in a word character, does
survive), the alias regex `\bc\+\+\b` fails for the same reason, and
`extract_skills` finds nothing in the standalone token `"c++"`. -/
theorem cplusplus_token_lost :
    wordTokens ((pyLower "c++").toList) = ["c"] ∧
    wordTokens ((pyLower "node.js").toList) = ["node.js"] ∧
    extract_skills "c++" = [] ∧
    extract_skills "C++ developer" = [] := by
  refine ⟨by decide, by decide, by decide, by decide⟩

/-- C3: for every input text, `extract_skills` returns a duplicate-free
list, sorted ascending in the code-point string order Python's `sorted`
uses, whose members all belong to the configured vocabulary. -/
theorem extract_skills_sorted_nodup_vocab (text : String) :
    (extract_skills text).Nodup ∧ (extract_skills text).Sorted strLeR ∧
    ∀ s ∈ extract_skills text, s ∈ KNOWN_SKILLS := by
  unfold extract_skills
  by_cases h : text = ""
  · simp [h]
  · rw [if_neg h]
    refine ⟨?_, ?_, ?_⟩
    · exact ((List.perm_insertionSort strLeR _).symm).nodup (List.nodup_dedup _)
    · exact List.sorted_insertionSort strLeR _
    · intro s hs
      rw [List.mem_insertionSort, List.mem_dedup, List.reduceOption_mem_iff] at hs
      obtain ⟨v, hv, hmem⟩ := found_skills_spec hs
      rwa [Option.some_inj.mp hv]

/-- C3 witness: the vocabulary-membership part at a concrete extraction. -/
theorem extract_skills_sorted_nodup_vocab_witness : "Python" ∈ KNOWN_SKILLS :=
  (extract_skills_sorted_nodup_vocab "python").2.2 "Python" (by decide)

/-- C5: `"js"` inside `"enjoys"` does not trigger the JavaScript alias
(word-boundary-safe matching), while the standalone token `"js"` does. -/
theorem word_boundary_alias_property :
    "JS" ∉ extract_skills "enjoys programming" ∧
    "JavaScript" ∉ extract_skills "enjoys programming" ∧
    "JavaScript" ∈ extract_skills "I use js daily" := by
  refine ⟨by decide, by decide, by decide⟩

/-- C7: `extract_experience_years` returns an upper bound of every
integer collected by the three experience patterns; it returns `0` when
none matched and one of the collected values otherwise. -/
theorem extract_experience_years_max (text : String) :
    (∀ y ∈ experience_years_found text, y ≤ extract_experience_years text) ∧
    (experience_years_found text = [] → extract_experience_years text = 0) ∧
    (experience_years_found text ≠ [] →
      extract_experience_years text ∈ experience_years_found text) := by
  unfold extract_experience_years
  rcases hy : experience_years_found text with _ | ⟨y, ys⟩
  · exact ⟨fun _ h => absurd h (by simp), fun _ => rfl, fun h => absurd rfl h⟩
  · refine ⟨?_, fun h => absurd h (by simp), fun _ => ?_⟩
    · intro z hz
      rcases List.mem_cons.mp hz with rfl | hz
      · exact foldl_max_init_le ys z
      · exact foldl_max_le ys y z hz
    · show List.foldl max y ys ∈ y :: ys
      rcases foldl_max_mem ys y with h | h
      · exact List.mem_cons_of_mem y h
      · rw [h]
        exact List.mem_cons_self y ys

/-- C7 witness: the maximum property at a concrete text where the first
pattern collects exactly `[5]`. -/
theorem extract_experience_years_max_witness :
    5 ≤ extract_experience_years "5 years experience" ∧
    extract_experience_years "5 years experience" ∈
      experience_years_found "5 years experience" :=
  ⟨(extract_experience_years_max "5 years experience").1 5 (by decide),
   (extract_experience_years_max "5 years experience").2.2 (by decide)⟩

/-- C8: every extractor is a total Lean function of its input string, and
on the empty string each one signals absence: the skill list is empty,
the email, phone and education extractors return `none`, and the
experience extractor returns `0`. -/
theorem extractors_total_on_empty :
    extract_skills "" = [] ∧ extract_email "" = none ∧ extract_phone "" = none ∧
    extract_education "" = none ∧ extract_experience_years "" = 0 := by
  refine ⟨by decide, by decide, by decide, by decide, by decide⟩

/-- C9: every value the four methods accumulate is a `some` (the alias
branch guards its `_find_original_case` lookup); the alias-group keys
`"sql"` and `"html/css"` are not canonical vocabulary names, so those
groups never contribute — `extract_skills "tsql"` is empty. -/
theorem found_skills_never_none :
    (∀ (text : String), ∀ o ∈ found_skills text, o ≠ none) ∧
    find_original_case "sql" = none ∧
    find_original_case "html/css" = none ∧
    extract_skills "tsql" = [] := by
  refine ⟨?_, by decide, by decide, by decide⟩
  intro text o ho hn
  obtain ⟨s, hs, _⟩ := found_skills_spec ho
  rw [hn] at hs
  cases hs

/-- C9 witness: the no-`none` property at a concrete accumulated value. -/
theorem found_skills_never_none_witness : (some "Python" : Option String) ≠ none :=
  found_skills_never_none.1 "python" (some "Python") (by decide)

/-- C10: multi-word matching is plain substring containment, so
`"rest api"` inside `"forest apiary"` is reported as the skill
`"REST API"` even though it only occurs inside larger words. -/
theorem multiword_substring_false_positive :
    extract_skills "forest apiary" = ["REST API"] := by decide

end JobPortal
